import Mathlib

/-!
Verification of the core pipeline of the ebook translator (src/tradutor.py).

The development shallowly embeds the methods of the EbookTranslator class:
markup text extraction, paragraph splitting, the JSON checkpoint store,
batched translation with its error policy, the resumable batch loop of
translate_ebook, output book construction, and the backend fallback of
initialize_translator.  File system state and the translation pipeline are
made explicit; the translation backend is a parameter (a function from a
batch of strings to an optional batch of translated strings, failure being
the exception path of the Python code).
-/

/-! ### Python string primitives -/

/-- Whitespace characters stripped by Python str.strip and matched by the
regex class backslash-s on ASCII input. -/
def isPySpace (c : Char) : Bool :=
  c = ' ' || c = '\t' || c = '\n' || c = '\r' || c = '\x0b' || c = '\x0c'

/-- Python str.strip: remove leading and trailing whitespace. -/
def pyStrip (s : String) : String :=
  ⟨((s.toList.dropWhile isPySpace).reverse.dropWhile isPySpace).reverse⟩

/-- Prefix test on character lists (structural, kernel-reducible). -/
def listStarts : List Char → List Char → Bool
  | _, [] => true
  | [], _ :: _ => false
  | c :: t, d :: u => c = d && listStarts t u

/-- Python str.startswith. -/
def strStarts (s pre : String) : Bool := listStarts s.toList pre.toList

/-- Python str.endswith. -/
def strEnds (s suf : String) : Bool := listStarts s.toList.reverse suf.toList.reverse

/-- Python sep.join(parts). -/
def strJoin (sep : String) : List String → String
  | [] => ""
  | [x] => x
  | x :: y :: t => x ++ sep ++ strJoin sep (y :: t)

/-- Substring test on character lists, modelling the Python operator
`needle in hay` on strings. -/
def containsSub (needle : List Char) : List Char → Bool
  | [] => listStarts [] needle
  | c :: t => listStarts (c :: t) needle || containsSub needle t

/-- Test used at line 172 of tradutor.py: the string ROMANCE occurring in
the model name selects the multilingual branch. -/
def romanceIn (model_name : String) : Bool :=
  containsSub "ROMANCE".toList model_name.toList

/-- Model of translated_text.replace(chr(10), br-tag) at line 285: the
pattern is the single newline character. -/
def replaceNlBr (s : String) : String :=
  ⟨s.toList.flatMap (fun c => if c = '\n' then "<br/>".toList else [c])⟩

/-! ### Markup model and text extraction (lines 135-147) -/

/-- A parsed markup tree as produced by BeautifulSoup: a text run or an
element with a tag and children. -/
inductive Node where
  | text (s : String)
  | elem (tag : String) (children : List Node)

mutual
/-- All descendant text runs of a node in document order; tags play no role,
exactly as in soup.get_text. -/
def nodeTexts : Node → List String
  | .text s => [s]
  | .elem _ cs => nodeTextsList cs

/-- All descendant text runs of a list of sibling nodes. -/
def nodeTextsList : List Node → List String
  | [] => []
  | n :: t => nodeTexts n ++ nodeTextsList t
end

/-- soup.get_text with newline separator: every descendant string joined
by a newline. -/
def getText (content : List Node) : String :=
  strJoin "\n" (nodeTextsList content)

/-- One entry of the input EPUB: its archive name and, for document
entries, the parsed markup children of the soup. -/
structure Item where
  name : String
  content : List Node

/-- EbookTranslator.extract_text_from_epub: keep items whose name starts
with Text/ and ends with .xhtml, take their full text stripped, drop empty
chapters, join with a blank line. -/
def extract_text_from_epub (book : List Item) : String :=
  strJoin "\n\n" (book.filterMap (fun item =>
    if strStarts item.name "Text/" && strEnds item.name ".xhtml" then
      let text := pyStrip (getText item.content)
      if text ≠ "" then some text else none
    else none))

/-! ### Paragraph splitting (lines 149-152)

re.split on the pattern newline, whitespace-star (greedy), newline: a
match begins at a newline whose following maximal whitespace run contains
another newline, and extends through the last newline of that run. -/

/-- Given the characters after an initial newline, return the remainder of
the input just after the last newline inside the leading whitespace run,
if that run contains a newline at all (this is where the greedy
whitespace-star with the final newline of the regex ends its match). -/
def afterLastNl : List Char → Option (List Char)
  | [] => none
  | c :: t =>
    if isPySpace c then
      match afterLastNl t with
      | some r => some r
      | none => if c = '\n' then some t else none
    else none

/-- Left-to-right scan splitting at every regex match; fuel is an upper
bound on the remaining length, making the recursion structural. -/
def reSplitAux : Nat → List Char → List Char → List (List Char)
  | _, [], acc => [acc.reverse]
  | 0, cs, acc => [acc.reverse ++ cs]
  | fuel + 1, c :: t, acc =>
    if c = '\n' then
      match afterLastNl t with
      | some r => acc.reverse :: reSplitAux fuel r []
      | none => reSplitAux fuel t (c :: acc)
    else reSplitAux fuel t (c :: acc)

/-- re.split of the blank-line pattern over a string. -/
def reSplitBlank (s : String) : List String :=
  (reSplitAux s.toList.length s.toList []).map (fun cs => ⟨cs⟩)

/-- EbookTranslator.split_into_paragraphs: regex split, strip each piece,
keep the non-empty ones. -/
def split_into_paragraphs (text : String) : List String :=
  ((reSplitBlank text).map pyStrip).filter (fun p => p ≠ "")

/-! ### Checkpoint store (lines 154-165)

The progress file is modelled explicitly: absent, present but not parseable
as JSON, or holding a parsed JSON value.  JSON values are restricted to the
shapes reachable through the checkpoint protocol (numbers, strings, lists
of strings, and one-level objects over those). -/

/-- A JSON value stored under a key of the checkpoint object. -/
inductive PyField where
  | num (n : Nat)
  | strList (l : List String)
deriving DecidableEq

/-- A parsed JSON value, as returned by json.load. -/
inductive PyVal where
  | num (n : Nat)
  | str (s : String)
  | strList (l : List String)
  | dict (fields : List (String × PyField))
deriving DecidableEq

/-- A well-formed checkpoint, the dictionary built at lines 239-243. -/
structure Progress where
  translated_paragraphs : List String
  current_index : Nat
  total_paragraphs : Nat
deriving DecidableEq

/-- The JSON object json.dump writes for a checkpoint. -/
def encodeProgress (p : Progress) : PyVal :=
  .dict [("translated_paragraphs", .strList p.translated_paragraphs),
         ("current_index", .num p.current_index),
         ("total_paragraphs", .num p.total_paragraphs)]

/-- The empty checkpoint literal of lines 160-161. -/
def defaultProgressPy : PyVal :=
  .dict [("translated_paragraphs", .strList []),
         ("current_index", .num 0),
         ("total_paragraphs", .num 0)]

/-- State of the progress file on disk. -/
inductive FileState where
  | absent
  | invalidJson
  | json (v : PyVal)
deriving DecidableEq

/-- EbookTranslator.load_progress: the parsed JSON value of the file, or
the empty checkpoint when the file is absent or json.load raises. -/
def load_progress : FileState → PyVal
  | .absent => defaultProgressPy
  | .invalidJson => defaultProgressPy
  | .json v => v

/-- EbookTranslator.save_progress: overwrite the file with the JSON
encoding of the checkpoint. -/
def save_progress (p : Progress) : FileState :=
  .json (encodeProgress p)

/-- Python dict lookup with default (dict.get): for a dictionary built
from JSON, a repeated key keeps its last value. -/
def pyLookup : List (String × PyField) → String → PyField → PyField
  | [], _, dflt => dflt
  | (k, v) :: t, key, dflt => pyLookup t key (if k = key then v else dflt)

/-- Lines 212-219 of translate_ebook: read the three checkpoint fields with
dict.get and restart from zero when the recorded total differs from the
current paragraph count.  none models the exception path: a non-dict value
raises AttributeError at the first dict.get (line 213), and on the resume
path a non-numeric current_index raises in range() and a non-list
translated_paragraphs raises at its first use; all are caught by the
enclosing try of translate_ebook before any new checkpoint is written. -/
def resolveProgress (progress : PyVal) (total : Nat) : Option (Nat × List String) :=
  match progress with
  | .dict fields =>
    let tp := pyLookup fields "translated_paragraphs" (.strList [])
    let ci := pyLookup fields "current_index" (.num 0)
    let tot := pyLookup fields "total_paragraphs" (.num 0)
    if tot ≠ PyField.num total then some (0, [])
    else
      match ci, tp with
      | .num n, .strList l => some (n, l)
      | _, _ => none
  | _ => none

/-! ### Translation service and batch policy (lines 110-133, 167-195) -/

/-- The strings actually submitted to the pipeline for a batch: multilingual
models get the target-language hint appended to every paragraph
(lines 172-180), direct pair models get the paragraphs unchanged. -/
def batch_inputs (model_name : String) (paragraphs : List String) : List String :=
  if romanceIn model_name then paragraphs.map (fun t => t ++ " [PT]") else paragraphs

/-- EbookTranslator.translate_batch: submit the batch; on success return the
translation_text fields, on any exception return the original paragraphs
(lines 193-195).  The backend tr is the already initialized pipeline,
returning none when the call raises. -/
def translate_batch (tr : List String → Option (List String)) (model_name : String)
    (paragraphs : List String) : List String :=
  match tr (batch_inputs model_name paragraphs) with
  | some ts => ts
  | none => paragraphs

/-! ### Backend selection (lines 61-108) -/

/-- The built-in candidate models in quality order (lines 66-70). -/
def model_options : List String :=
  ["Helsinki-NLP/opus-mt-tc-big-en-pt",
   "Helsinki-NLP/opus-mt-en-pt",
   "Helsinki-NLP/opus-mt-en-ROMANCE"]

/-- Lines 72-73: the caller-preferred model is prepended only when it is
truthy (non-empty) and not already among the built-in candidates. -/
def models_to_try (model_name : Option String) : List String :=
  match model_name with
  | some m => if m ≠ "" ∧ ¬ m ∈ model_options then m :: model_options else model_options
  | none => model_options

/-- The candidate loop of lines 75-102: inst m holds when the pipeline for
m can be instantiated, canary m when the test translation then succeeds;
the first candidate passing both is selected, a failure of either step
moves on to the next candidate. -/
def try_models (inst canary : String → Bool) : List String → Option String
  | [] => none
  | m :: rest =>
    if inst m then
      if canary m then some m else try_models inst canary rest
    else try_models inst canary rest

/-- EbookTranslator.initialize_translator: run the candidate loop over the
prioritized list; none models the exception raised at line 104 when every
candidate is exhausted. -/
def initialize_translator (inst canary : String → Bool)
    (model_name : Option String) : Option String :=
  try_models inst canary (models_to_try model_name)

/-! ### Output book (lines 270-292) -/

/-- An epub.EpubHtml chapter as configured by save_translated_epub. -/
structure Chapter where
  title : String
  file_name : String
  lang : String
  content : String
deriving DecidableEq

/-- The fresh EpubBook written by save_translated_epub. -/
structure OutBook where
  title : String
  language : String
  items : List Chapter
  spine : List String
deriving DecidableEq

/-- EbookTranslator.save_translated_epub: build a brand new book holding a
single chapter whose content is the translated paragraphs joined by blank
lines, with newlines turned into br tags. -/
def save_translated_epub (translated_paragraphs : List String) : OutBook :=
  let translated_text := strJoin "\n\n" translated_paragraphs
  { title := "Livro Traduzido"
    language := "pt"
    items := [{ title := "Conteúdo Traduzido"
                file_name := "chapter.xhtml"
                lang := "pt"
                content := "<html><body>" ++ replaceNlBr translated_text ++ "</body></html>" }]
    spine := ["chapter.xhtml"] }

/-! ### The orchestrator (lines 197-268)

Cancellation: the worker callback owns a boolean flag is_running, set once
from true to false by the GUI stop button.  It is modelled as a threshold:
cb = none is the callback-less invocation, cb = some none a callback whose
flag stays true, cb = some (some n) a callback whose flag turns false after
the n-th poll (so the run performs exactly n batches before stopping, when
n is below the number of batches).  The loop polls once per iteration
(line 229) and the final commit re-reads the same flag (line 258). -/

/-- Value of the is_running flag at the k-th poll for a given threshold. -/
def isRunning (cancelAt : Option Nat) (k : Nat) : Bool :=
  match cancelAt with
  | none => true
  | some n => k < n

/-- Line 229: break when a callback is present and its flag is down. -/
def cbStops (cb : Option (Option Nat)) (k : Nat) : Bool :=
  match cb with
  | none => false
  | some c => !(isRunning c k)

/-- Line 258: the final commit requires a present callback with its flag
still up. -/
def cbRunning (cb : Option (Option Nat)) (k : Nat) : Bool :=
  match cb with
  | none => false
  | some c => isRunning c k

/-- Result of the batch loop: accumulated translations, progress file
state, and the number of polls consumed. -/
structure LoopOut where
  translated : List String
  fs : FileState
  polls : Nat
deriving DecidableEq

/-- The loop of lines 228-255 over range(start_index, total, batch_size)
with batch_size = 2, recast structurally on the remaining paragraph list
(rest = paragraphs from index i on): poll the flag, translate the next
batch of at most two paragraphs, extend the accumulated list, write the
checkpoint with current_index = i + len(batch). -/
def batchLoop (tr : List String → Option (List String)) (model_name : String)
    (total : Nat) (cb : Option (Option Nat)) :
    List String → Nat → Nat → List String → FileState → LoopOut
  | [], _, k, acc, fs => ⟨acc, fs, k⟩
  | [a], i, k, acc, fs =>
    if cbStops cb k then ⟨acc, fs, k⟩
    else
      let acc2 := acc ++ translate_batch tr model_name [a]
      ⟨acc2, save_progress ⟨acc2, i + 1, total⟩, k + 1⟩
  | a :: b :: rest, i, k, acc, fs =>
    if cbStops cb k then ⟨acc, fs, k⟩
    else
      let acc2 := acc ++ translate_batch tr model_name [a, b]
      batchLoop tr model_name total cb rest (i + 2) (k + 1) acc2
        (save_progress ⟨acc2, i + 2, total⟩)

/-- Observable outcome of one translate_ebook call: the written output book
if any, the final progress file state, and whether the finished and error
signals were emitted. -/
structure RunState where
  output : Option OutBook
  fs : FileState
  finished : Bool
  errored : Bool
deriving DecidableEq

/-- EbookTranslator.translate_ebook: extract and split the text, resolve
the checkpoint, run the batch loop, and, only when a callback is present
with its flag still up, write the output book, delete the progress file and
emit the finished signal.  The translator is assumed initialized (tr); an
exception on the checkpoint resume path is caught by the enclosing try and
reported through error_occurred when a callback is present. -/
def translate_ebook (tr : List String → Option (List String)) (model_name : String)
    (book : List Item) (cb : Option (Option Nat)) (fs : FileState) : RunState :=
  let paragraphs := split_into_paragraphs (extract_text_from_epub book)
  let total := paragraphs.length
  match resolveProgress (load_progress fs) total with
  | none => ⟨none, fs, false, cb.isSome⟩
  | some (start_index, translated0) =>
    let res := batchLoop tr model_name total cb (paragraphs.drop start_index)
      start_index 0 translated0 fs
    if cbRunning cb res.polls then
      ⟨some (save_translated_epub res.translated), .absent, true, false⟩
    else
      ⟨none, res.fs, false, false⟩

/-! ### Reference functions used to state the theorems -/

/-- The paragraph stream of an input book. -/
def bookParagraphs (book : List Item) : List String :=
  split_into_paragraphs (extract_text_from_epub book)

/-- The batches of size at most two the loop submits, in order. -/
def chunks2 : List String → List (List String)
  | [] => []
  | [a] => [[a]]
  | a :: b :: t => [a, b] :: chunks2 t

/-- The batches of an input book. -/
def bookChunks (book : List Item) : List (List String) :=
  chunks2 (bookParagraphs book)

/-- Translation of a paragraph stream batch by batch, with the per-batch
failure policy of translate_batch. -/
def runBatches (tr : List String → Option (List String)) (model_name : String)
    (l : List String) : List String :=
  ((chunks2 l).map (translate_batch tr model_name)).flatten

/-- A progress file state from which a completed run still produces the
translation of the whole paragraph stream: the checkpoint resolves to a
position s with accumulated list t such that t followed by the batch
translation of the remaining paragraphs is the batch translation of the
whole stream. -/
def fsInv (tr : List String → Option (List String)) (model_name : String)
    (ps : List String) (fs : FileState) : Prop :=
  ∃ s t, resolveProgress (load_progress fs) ps.length = some (s, t) ∧
    t ++ runBatches tr model_name (ps.drop s) = runBatches tr model_name ps

/-! ### Concrete inputs for the counterexamples and witnesses -/

/-- A deterministic backend translating every paragraph by prefixing T:. -/
def trT : List String → Option (List String) :=
  fun l => some (l.map (fun s => "T:" ++ s))

/-- Input container with one document entry, a stylesheet and an image. -/
def bkEntries : List Item :=
  [⟨"Text/ch1.xhtml", [.text "Hello."]⟩,
   ⟨"Styles/style.css", []⟩,
   ⟨"Images/cover.png", []⟩]

/-- Document holding a single fragment with leading and trailing
whitespace. -/
def bkWs : List Item :=
  [⟨"Text/c1.xhtml", [.text "  Hello world\n"]⟩]

/-- Backend translating the core text Hello world to Olá mundo. -/
def trWs : List String → Option (List String) :=
  fun l => some (l.map (fun s => if s = "Hello world" then "Olá mundo" else s))

/-- Four-document container in one order. -/
def bkOrdA : List Item :=
  [⟨"Text/a1.xhtml", [.text "One."]⟩, ⟨"Text/a2.xhtml", [.text "Two."]⟩,
   ⟨"Text/a3.xhtml", [.text "Three."]⟩, ⟨"Text/a4.xhtml", [.text "Four."]⟩]

/-- The same four documents in the reverse order: a different document
order with the same total paragraph count. -/
def bkOrdB : List Item :=
  [⟨"Text/a4.xhtml", [.text "Four."]⟩, ⟨"Text/a3.xhtml", [.text "Three."]⟩,
   ⟨"Text/a2.xhtml", [.text "Two."]⟩, ⟨"Text/a1.xhtml", [.text "One."]⟩]

/-- Six-paragraph container: three batches of two. -/
def bkSix : List Item :=
  [⟨"Text/a1.xhtml", [.text "One."]⟩, ⟨"Text/a2.xhtml", [.text "Two."]⟩,
   ⟨"Text/a3.xhtml", [.text "Three."]⟩, ⟨"Text/a4.xhtml", [.text "Four."]⟩,
   ⟨"Text/a5.xhtml", [.text "Five."]⟩, ⟨"Text/a6.xhtml", [.text "Six."]⟩]

/-- Backend failing on exactly the middle batch of bkSix. -/
def trMid : List String → Option (List String) :=
  fun l => if l = ["Three.", "Four."] then none else some (l.map (fun s => "T:" ++ s))

/-! ## Theorems

General helper lemmas first, then one theorem per claim, each with its
witness or counterexample. -/

/-- Induction on lists two elements at a time, matching the batch width. -/
theorem list_two_step {α : Type} {motive : List α → Prop} (h0 : motive [])
    (h1 : ∀ a, motive [a]) (h2 : ∀ a b t, motive t → motive (a :: b :: t)) :
    ∀ l : List α, motive l
  | [] => h0
  | [a] => h1 a
  | a :: b :: t => h2 a b t (list_two_step h0 h1 h2 t)

/-- Batch translation of the empty stream. -/
theorem runBatches_nil (tr : List String → Option (List String)) (mn : String) :
    runBatches tr mn [] = [] := rfl

/-- Batch translation of a singleton stream. -/
theorem runBatches_one (tr : List String → Option (List String)) (mn : String)
    (a : String) : runBatches tr mn [a] = translate_batch tr mn [a] := by
  simp [runBatches, chunks2]

/-- Batch translation of a stream of length at least two. -/
theorem runBatches_cons2 (tr : List String → Option (List String)) (mn : String)
    (a b : String) (t : List String) :
    runBatches tr mn (a :: b :: t)
      = translate_batch tr mn [a, b] ++ runBatches tr mn t := by
  simp [runBatches, chunks2]

/-- The loop never stops when the callback is absent or its flag stays up;
then the accumulated result is the batch translation of the remaining
stream appended to the accumulator. -/
theorem batchLoop_translated (tr : List String → Option (List String)) (mn : String)
    (total : Nat) (cb : Option (Option Nat)) (hcb : ∀ k, cbStops cb k = false) :
    ∀ rest : List String, ∀ i k acc fs,
      (batchLoop tr mn total cb rest i k acc fs).translated
        = acc ++ runBatches tr mn rest := by
  intro rest
  induction rest using list_two_step with
  | h0 => intro i k acc fs; simp [batchLoop, runBatches, chunks2]
  | h1 a => intro i k acc fs; simp [batchLoop, hcb, runBatches_one]
  | h2 a b t ih =>
    intro i k acc fs
    simp [batchLoop, hcb, ih, runBatches_cons2]

/-- The loop either leaves the progress file alone or leaves a checkpoint
written by save_progress. -/
theorem batchLoop_fs_shape (tr : List String → Option (List String)) (mn : String)
    (total : Nat) (cb : Option (Option Nat)) :
    ∀ rest : List String, ∀ i k acc fs,
      (batchLoop tr mn total cb rest i k acc fs).fs = fs ∨
        ∃ p : Progress, (batchLoop tr mn total cb rest i k acc fs).fs = save_progress p := by
  intro rest
  induction rest using list_two_step with
  | h0 => intro i k acc fs; left; rfl
  | h1 a =>
    intro i k acc fs
    by_cases h : cbStops cb k
    · left; simp [batchLoop, h]
    · right
      refine ⟨⟨acc ++ translate_batch tr mn [a], i + 1, total⟩, ?_⟩
      simp [batchLoop, h]
  | h2 a b t ih =>
    intro i k acc fs
    by_cases h : cbStops cb k
    · left; simp [batchLoop, h]
    · rcases ih (i + 2) (k + 1) (acc ++ translate_batch tr mn [a, b])
        (save_progress ⟨acc ++ translate_batch tr mn [a, b], i + 2, total⟩) with h2 | ⟨p, hp⟩
      · right
        refine ⟨⟨acc ++ translate_batch tr mn [a, b], i + 2, total⟩, ?_⟩
        simp only [batchLoop, h, if_false, Bool.false_eq_true]
        exact h2
      · right
        refine ⟨p, ?_⟩
        simp only [batchLoop, h, if_false, Bool.false_eq_true]
        exact hp

/-- Loading a saved checkpoint yields its JSON encoding. -/
theorem load_save (p : Progress) :
    load_progress (save_progress p) = encodeProgress p := rfl

/-- Resolving an encoded checkpoint: resume at its recorded position when
the totals agree, restart from zero otherwise. -/
theorem resolveProgress_encode (p : Progress) (total : Nat) :
    resolveProgress (encodeProgress p) total =
      if p.total_paragraphs = total then some (p.current_index, p.translated_paragraphs)
      else some (0, []) := by
  by_cases h : p.total_paragraphs = total <;>
    simp [resolveProgress, encodeProgress, pyLookup, h]

/-- Resolving the empty checkpoint always starts from zero. -/
theorem resolveProgress_default (total : Nat) :
    resolveProgress defaultProgressPy total = some (0, []) := by
  by_cases h : total = 0
  · subst h; rfl
  · simp [resolveProgress, defaultProgressPy, pyLookup, fun h2 => h (Eq.symm h2)]

/-- The absent progress file satisfies the resume invariant. -/
theorem fsInv_absent (tr : List String → Option (List String)) (mn : String)
    (ps : List String) : fsInv tr mn ps .absent :=
  ⟨0, [], by simp [load_progress, resolveProgress_default], by simp⟩

/-- The loop preserves the resume invariant: starting at position i on the
remaining stream with a consistent accumulator, the progress file it leaves
behind again resolves to a position whose completion yields the batch
translation of the whole stream. -/
theorem batchLoop_fs_inv (tr : List String → Option (List String)) (mn : String)
    (cb : Option (Option Nat)) (ps : List String) :
    ∀ rest : List String, ∀ i k acc fs, rest = ps.drop i →
      acc ++ runBatches tr mn rest = runBatches tr mn ps →
      fsInv tr mn ps fs →
      fsInv tr mn ps (batchLoop tr mn ps.length cb rest i k acc fs).fs := by
  intro rest
  induction rest using list_two_step with
  | h0 => intro i k acc fs hrest hacc hfs; exact hfs
  | h1 a =>
    intro i k acc fs hrest hacc hfs
    by_cases h : cbStops cb k
    · simpa [batchLoop, h] using hfs
    · refine ⟨i + 1, acc ++ translate_batch tr mn [a], ?_, ?_⟩
      · simp [batchLoop, h, load_save, resolveProgress_encode]
      · have hdrop : ps.drop (i + 1) = [] := by
          rw [← List.drop_drop, ← hrest]; rfl
        rw [hdrop]
        simpa [runBatches_one, runBatches_nil] using hacc
  | h2 a b t ih =>
    intro i k acc fs hrest hacc hfs
    by_cases h : cbStops cb k
    · simpa [batchLoop, h] using hfs
    · have hdrop : t = ps.drop (i + 2) := by
        rw [← List.drop_drop, ← hrest]; rfl
      have hacc2 : (acc ++ translate_batch tr mn [a, b]) ++ runBatches tr mn t
          = runBatches tr mn ps := by
        rw [List.append_assoc, ← runBatches_cons2]; exact hacc
      have hfs2 : fsInv tr mn ps
          (save_progress ⟨acc ++ translate_batch tr mn [a, b], i + 2, ps.length⟩) := by
        refine ⟨i + 2, acc ++ translate_batch tr mn [a, b], ?_, ?_⟩
        · simp [load_save, resolveProgress_encode]
        · rw [← hdrop]; exact hacc2
      have := ih (i + 2) (k + 1) (acc ++ translate_batch tr mn [a, b])
        (save_progress ⟨acc ++ translate_batch tr mn [a, b], i + 2, ps.length⟩)
        hdrop hacc2 hfs2
      simpa [batchLoop, h] using this

/-- A run with a live callback from any progress file state satisfying the
resume invariant completes: it writes the batch translation of the whole
paragraph stream, deletes the progress file and emits the finished
signal. -/
theorem translate_ebook_complete (tr : List String → Option (List String)) (mn : String)
    (book : List Item) (fs : FileState)
    (h : fsInv tr mn (bookParagraphs book) fs) :
    translate_ebook tr mn book (some none) fs =
      ⟨some (save_translated_epub (runBatches tr mn (bookParagraphs book))),
       .absent, true, false⟩ := by
  obtain ⟨s, t, hres, hrun⟩ := h
  have hcb : ∀ k, cbStops (some (none : Option Nat)) k = false := by
    intro k; rfl
  have hps : split_into_paragraphs (extract_text_from_epub book) = bookParagraphs book := rfl
  simp only [translate_ebook, hps, hres]
  have htr := batchLoop_translated tr mn (bookParagraphs book).length (some none) hcb
    ((bookParagraphs book).drop s) s 0 t fs
  simp [cbRunning, isRunning, htr, hrun]

/-- Whatever the callback behaviour, a run started on the absent progress
file leaves a file state from which a later run still completes into the
full batch translation. -/
theorem translate_ebook_fs_inv (tr : List String → Option (List String)) (mn : String)
    (book : List Item) (cb : Option (Option Nat)) :
    fsInv tr mn (bookParagraphs book) (translate_ebook tr mn book cb .absent).fs := by
  have hps : split_into_paragraphs (extract_text_from_epub book) = bookParagraphs book := rfl
  have hload : load_progress .absent = defaultProgressPy := rfl
  simp only [translate_ebook, hps, hload, resolveProgress_default]
  by_cases h : cbRunning cb (batchLoop tr mn (bookParagraphs book).length cb
      ((bookParagraphs book).drop 0) 0 0 [] .absent).polls
  · simp only [h, if_true]
    exact fsInv_absent tr mn (bookParagraphs book)
  · simp only [h, if_false, Bool.false_eq_true]
    exact batchLoop_fs_inv tr mn cb (bookParagraphs book)
      ((bookParagraphs book).drop 0) 0 0 [] .absent rfl (by simp)
      (fsInv_absent tr mn (bookParagraphs book))

/-- The head of a dropWhile result fails the predicate. -/
theorem dropWhile_head_not {q : Char → Bool} :
    ∀ l : List Char, ∀ c, (l.dropWhile q).head? = some c → q c = false := by
  intro l
  induction l with
  | nil => intro c h; simp at h
  | cons d t ih =>
    intro c h
    by_cases hd : q d
    · rw [List.dropWhile_cons, if_pos hd] at h
      exact ih c h
    · rw [List.dropWhile_cons, if_neg hd] at h
      simp only [List.head?_cons, Option.some.injEq] at h
      subst h
      simpa using hd

/-- dropWhile is the identity on a list whose head fails the predicate. -/
theorem dropWhile_eq_self_of_head {q : Char → Bool} (l : List Char)
    (h : ∀ c, l.head? = some c → q c = false) : l.dropWhile q = l := by
  cases l with
  | nil => rfl
  | cons d t => rw [List.dropWhile_cons, h d rfl]; simp

/-- Stripping both ends twice is the same as stripping once. -/
theorem stripList_idem (q : Char → Bool) (l : List Char) :
    (((((l.dropWhile q).reverse.dropWhile q).reverse.dropWhile q).reverse.dropWhile q).reverse)
      = ((l.dropWhile q).reverse.dropWhile q).reverse := by
  set A := l.dropWhile q with hA
  set B := A.reverse.dropWhile q with hB
  have hBlast : ∀ c, B.getLast? = some c → q c = false := by
    intro c h
    obtain ⟨pre, hpre⟩ := List.dropWhile_suffix (l := A.reverse) q
    have h2 : A.reverse.getLast? = some c := by
      rw [← hpre, List.getLast?_append, ← hB, h]
      rfl
    rw [List.getLast?_reverse] at h2
    exact dropWhile_head_not l c h2
  have hBrev : B.reverse.dropWhile q = B.reverse := by
    apply dropWhile_eq_self_of_head
    intro c h
    rw [List.head?_reverse] at h
    exact hBlast c h
  have hBdrop : B.dropWhile q = B := by
    apply dropWhile_eq_self_of_head
    intro c h
    exact dropWhile_head_not A.reverse c h
  rw [hBrev, List.reverse_reverse, hBdrop]

/-- Python strip is idempotent. -/
theorem pyStrip_idem (s : String) : pyStrip (pyStrip s) = pyStrip s :=
  congrArg String.mk (stripList_idem isPySpace s.toList)

/-- C1: the claim states the output container keeps every input entry with
its name, ordering and non-document bytes.  Refuted: a completed run writes
a freshly built book holding exactly one chapter entry named chapter.xhtml;
the input entries (the document Text/ch1.xhtml, the stylesheet and the
image) do not appear in the output at all. -/
theorem C1_counterexample :
    ((translate_ebook trT "m" bkEntries (some none) .absent).output.map
        (fun ob => ob.items.map Chapter.file_name)) = some ["chapter.xhtml"] ∧
    "Text/ch1.xhtml" ∈ bkEntries.map Item.name ∧
    "Styles/style.css" ∈ bkEntries.map Item.name ∧
    ¬ "Text/ch1.xhtml" ∈ ["chapter.xhtml"] ∧
    ¬ "Styles/style.css" ∈ ["chapter.xhtml"] := by decide

/-- C1 amended: a completed run does not reassemble the input container;
it writes a brand new book whose only entry is chapter.xhtml, titled
Livro Traduzido, holding the batch translation of the extracted paragraph
stream. -/
theorem C1_rebuilt_output (tr : List String → Option (List String)) (mn : String)
    (book : List Item) :
    (translate_ebook tr mn book (some none) .absent).output
      = some (save_translated_epub (runBatches tr mn (bookParagraphs book))) ∧
    ∀ ts : List String,
      (save_translated_epub ts).items.map Chapter.file_name = ["chapter.xhtml"] ∧
      (save_translated_epub ts).title = "Livro Traduzido" ∧
      (save_translated_epub ts).spine = ["chapter.xhtml"] := by
  refine ⟨?_, fun ts => ⟨rfl, rfl, rfl⟩⟩
  rw [translate_ebook_complete tr mn book .absent (fsInv_absent tr mn (bookParagraphs book))]

/-- C2: cancelling a run after any number of completed batches and then
re-running to completion on the same input yields exactly the outcome of a
single uninterrupted run (the translation backend is a function, hence
deterministic); moreover that common outcome is the batch translation of
the whole paragraph stream. -/
theorem C2_resume_equiv (tr : List String → Option (List String)) (mn : String)
    (book : List Item) (n : Nat) :
    translate_ebook tr mn book (some none)
        (translate_ebook tr mn book (some (some n)) .absent).fs
      = translate_ebook tr mn book (some none) .absent ∧
    (translate_ebook tr mn book (some none) .absent).output
      = some (save_translated_epub (runBatches tr mn (bookParagraphs book))) := by
  constructor
  · rw [translate_ebook_complete tr mn book _ (translate_ebook_fs_inv tr mn book (some (some n))),
      translate_ebook_complete tr mn book .absent (fsInv_absent tr mn (bookParagraphs book))]
  · rw [translate_ebook_complete tr mn book .absent (fsInv_absent tr mn (bookParagraphs book))]

/-- C4: the claim states leading and trailing whitespace is captured and
reinserted around the transformed core.  Refuted: the fragment with two
leading spaces and a trailing newline is stripped at extraction, Olá mundo
is written without the original whitespace, and the whitespace-wrapped form
appears nowhere in the output. -/
theorem C4_counterexample :
    split_into_paragraphs (extract_text_from_epub bkWs) = ["Hello world"] ∧
    ((translate_ebook trWs "m" bkWs (some none) .absent).output.map
        (fun ob => ob.items.map Chapter.content))
      = some ["<html><body>Olá mundo</body></html>"] ∧
    containsSub "  Olá mundo\n".toList
      "<html><body>Olá mundo</body></html>".toList = false := by decide

/-- C4 amended: surrounding whitespace is stripped and discarded, not
captured: every paragraph the splitter produces is already stripped
(stripping it again changes nothing), only that stripped core is submitted,
and the output contains the transformed core without the original
whitespace, as on bkWs. -/
theorem C4_whitespace_discarded (s p : String) (hp : p ∈ split_into_paragraphs s) :
    pyStrip p = p ∧
    ((translate_ebook trWs "m" bkWs (some none) .absent).output.map
        (fun ob => ob.items.map Chapter.content))
      = some ["<html><body>Olá mundo</body></html>"] := by
  constructor
  · simp only [split_into_paragraphs, List.mem_filter, List.mem_map] at hp
    obtain ⟨⟨x, hx, rfl⟩, h2⟩ := hp
    exact pyStrip_idem x
  · decide

/-- C4 witness: the claim example fragment. -/
theorem C4_whitespace_discarded_witness :
    ("Hello world" ∈ split_into_paragraphs "  Hello world\n") ∧
    pyStrip "Hello world" = "Hello world" :=
  ⟨by decide, (C4_whitespace_discarded "  Hello world\n" "Hello world" (by decide)).1⟩

/-- C5: the claim states a checkpoint whose recorded document order differs
from the current container order is discarded.  Refuted: the checkpoint
records no document order at all; a checkpoint written while translating
bkOrdA resumes on the reordered container bkOrdB at its stale index 2,
translating the wrong paragraphs twice, instead of restarting from zero. -/
theorem C5_counterexample :
    (translate_ebook trT "m" bkOrdA (some (some 1)) .absent).fs
      = save_progress ⟨["T:One.", "T:Two."], 2, 4⟩ ∧
    (translate_ebook trT "m" bkOrdB (some none)
        (translate_ebook trT "m" bkOrdA (some (some 1)) .absent).fs).output
      = some (save_translated_epub ["T:One.", "T:Two.", "T:Two.", "T:One."]) ∧
    (translate_ebook trT "m" bkOrdB (some none)
        (translate_ebook trT "m" bkOrdA (some (some 1)) .absent).fs).output
      ≠ (translate_ebook trT "m" bkOrdB (some none) .absent).output := by decide

/-- C5 amended: the only validity check on a loaded checkpoint is its
recorded total paragraph count; whenever that count differs from the
current stream length the checkpoint is discarded and the run is identical
to one started with no checkpoint at all (restart from index zero with an
empty accumulator); a checkpoint with matching count is accepted with its
stale indices even on a differently ordered container, as bkOrdB shows. -/
theorem C5_total_mismatch (tr : List String → Option (List String)) (mn : String)
    (book : List Item) (p : Progress)
    (h : p.total_paragraphs ≠ (bookParagraphs book).length) :
    translate_ebook tr mn book (some none) (save_progress p)
      = translate_ebook tr mn book (some none) .absent := by
  have hinv : fsInv tr mn (bookParagraphs book) (save_progress p) :=
    ⟨0, [], by rw [load_save, resolveProgress_encode, if_neg h], by simp⟩
  rw [translate_ebook_complete tr mn book _ hinv,
    translate_ebook_complete tr mn book .absent (fsInv_absent tr mn (bookParagraphs book))]

/-- C5 witness: a checkpoint recording seven of ninety-nine paragraphs is
discarded on a one-paragraph container. -/
theorem C5_total_mismatch_witness :
    (Progress.total_paragraphs ⟨["X"], 7, 99⟩ ≠ (bookParagraphs bkEntries).length) ∧
    translate_ebook trT "m" bkEntries (some none) (save_progress ⟨["X"], 7, 99⟩)
      = translate_ebook trT "m" bkEntries (some none) .absent :=
  ⟨by decide, C5_total_mismatch trT "m" bkEntries ⟨["X"], 7, 99⟩ (by decide)⟩

/-- C6: when the backend fails on exactly one batch out of many, the run
still completes successfully (output written, finished emitted, no error
signal), the failed batch keeps its original paragraphs in the output, and
every other batch carries its translation. -/
theorem C6_batch_failure (tr : List String → Option (List String)) (mn : String)
    (book : List Item) (j : Nat) (f : Nat → List String)
    (hj : j < (bookChunks book).length)
    (hfail : tr (batch_inputs mn ((bookChunks book).get ⟨j, hj⟩)) = none)
    (hok : ∀ k, ∀ hk : k < (bookChunks book).length, k ≠ j →
      tr (batch_inputs mn ((bookChunks book).get ⟨k, hk⟩)) = some (f k)) :
    translate_ebook tr mn book (some none) .absent =
      ⟨some (save_translated_epub
          (((bookChunks book).map (translate_batch tr mn)).flatten)),
       .absent, true, false⟩ ∧
    translate_batch tr mn ((bookChunks book).get ⟨j, hj⟩)
      = (bookChunks book).get ⟨j, hj⟩ ∧
    (∀ k, ∀ hk : k < (bookChunks book).length, k ≠ j →
      translate_batch tr mn ((bookChunks book).get ⟨k, hk⟩) = f k) := by
  refine ⟨?_, ?_, ?_⟩
  · exact translate_ebook_complete tr mn book .absent
      (fsInv_absent tr mn (bookParagraphs book))
  · simp only [translate_batch, List.get_eq_getElem] at hfail ⊢
    rw [hfail]
  · intro k hk hne
    have h2 := hok k hk hne
    simp only [translate_batch, List.get_eq_getElem] at h2 ⊢
    rw [h2]

/-- C6 witness: six paragraphs in three batches, the backend failing on the
middle batch only; the final book translates batches one and three and
keeps the middle paragraphs untouched. -/
theorem C6_batch_failure_witness :
    ((1 < (bookChunks bkSix).length) ∧
      trMid (batch_inputs "m" ((bookChunks bkSix).get ⟨1, by decide⟩)) = none) ∧
    translate_ebook trMid "m" bkSix (some none) .absent =
      ⟨some (save_translated_epub
          ["T:One.", "T:Two.", "Three.", "Four.", "T:Five.", "T:Six."]),
       .absent, true, false⟩ := by
  refine ⟨⟨by decide, by decide⟩, ?_⟩
  have h := (C6_batch_failure trMid "m" bkSix 1
    (fun k => if k = 0 then ["T:One.", "T:Two."] else ["T:Five.", "T:Six."])
    (by decide) (by decide) (by decide)).1
  rw [h]
  decide

/-- C7: the claim states the caller-preferred identifier is placed first in
the candidate list.  Refuted: a preferred identifier already among the
built-in defaults is not moved to the front; with every backend available,
requesting the second default still selects the first default. -/
theorem C7_counterexample :
    initialize_translator (fun _ => true) (fun _ => true)
        (some "Helsinki-NLP/opus-mt-en-pt")
      = some "Helsinki-NLP/opus-mt-tc-big-en-pt" ∧
    models_to_try (some "Helsinki-NLP/opus-mt-en-pt")
      ≠ "Helsinki-NLP/opus-mt-en-pt" :: model_options := by decide

/-- The candidate loop selects the first candidate passing both the
instantiation and the canary test. -/
theorem try_models_first_pass (inst canary : String → Bool) :
    ∀ l : List String,
      try_models inst canary l = (l.filter (fun m => inst m && canary m)).head? := by
  intro l
  induction l with
  | nil => rfl
  | cons m rest ih =>
    by_cases hi : inst m <;> by_cases hc : canary m <;>
      simp [try_models, List.filter_cons, hi, hc, ih]

/-- C7 amended: for every preference, the selected backend is the first
candidate of the prioritized list whose instantiation and canary test both
succeed (the head of the filtered candidate list), and selection fails
exactly when every candidate of that list fails; the preferred identifier
is prepended to the built-in defaults only when it is non-empty and not
already a default, while a default preference leaves the candidate list as
the defaults in quality order. -/
theorem C7_selection (inst canary : String → Bool) (pref : Option String) :
    initialize_translator inst canary pref
      = ((models_to_try pref).filter (fun m => inst m && canary m)).head? ∧
    (∀ m ∈ model_options, models_to_try (some m) = model_options) ∧
    (∀ m : String, m ≠ "" → ¬ m ∈ model_options →
      models_to_try (some m) = m :: model_options) ∧
    (initialize_translator inst canary pref = none ↔
      ∀ m ∈ models_to_try pref, ¬ (inst m = true ∧ canary m = true)) := by
  refine ⟨try_models_first_pass inst canary (models_to_try pref), ?_, ?_, ?_⟩
  · intro m hm
    simp [models_to_try, hm]
  · intro m hm1 hm2
    simp [models_to_try, hm1, hm2]
  · rw [show initialize_translator inst canary pref
        = try_models inst canary (models_to_try pref) from rfl,
      try_models_first_pass inst canary (models_to_try pref),
      List.head?_eq_none_iff, List.filter_eq_nil_iff]
    constructor
    · intro h m hm hmc
      exact h m hm (by simp [hmc.1, hmc.2])
    · intro h m hm hmc
      rw [Bool.and_eq_true] at hmc
      exact h m hm hmc

/-- C7 witness: a non-empty, non-default preference is prepended, and with
the preferred backend and the first two defaults failing instantiation,
selection skips them and picks the third default, the first passing
candidate of the prepended list. -/
theorem C7_selection_witness :
    ("custom/en-pt" ≠ "" ∧ ¬ "custom/en-pt" ∈ model_options) ∧
    models_to_try (some "custom/en-pt") = "custom/en-pt" :: model_options ∧
    initialize_translator (fun m => m = "Helsinki-NLP/opus-mt-en-ROMANCE")
        (fun _ => true) (some "custom/en-pt")
      = some "Helsinki-NLP/opus-mt-en-ROMANCE" := by
  refine ⟨⟨by decide, by decide⟩, ?_, ?_⟩
  · exact (C7_selection (fun m => m = "Helsinki-NLP/opus-mt-en-ROMANCE")
      (fun _ => true) (some "custom/en-pt")).2.2.1 "custom/en-pt" (by decide) (by decide)
  · have h := (C7_selection (fun m => m = "Helsinki-NLP/opus-mt-en-ROMANCE")
      (fun _ => true) (some "custom/en-pt")).1
    rw [h]
    decide

/-- C8: saving a checkpoint and loading it back returns exactly the saved
checkpoint: the loaded JSON value is the encoding of the checkpoint, and
the encoding is injective, so the checkpoint is fully recovered. -/
theorem C8_roundtrip (p q : Progress) :
    load_progress (save_progress p) = encodeProgress p ∧
    (encodeProgress p = encodeProgress q → p = q) := by
  refine ⟨rfl, fun h => ?_⟩
  cases p
  cases q
  simp only [encodeProgress, PyVal.dict.injEq, List.cons.injEq, Prod.mk.injEq,
    PyField.strList.injEq, PyField.num.injEq, and_true, true_and] at h
  obtain ⟨h1, h2, h3⟩ := h
  simp_all

/-- C8 witness: a concrete checkpoint round-trips. -/
theorem C8_roundtrip_witness :
    load_progress (save_progress ⟨["Olá", "mundo"], 3, 7⟩)
      = encodeProgress ⟨["Olá", "mundo"], 3, 7⟩ ∧
    (⟨["Olá", "mundo"], 3, 7⟩ : Progress) = ⟨["Olá", "mundo"], 3, 7⟩ :=
  ⟨(C8_roundtrip ⟨["Olá", "mundo"], 3, 7⟩ ⟨["Olá", "mundo"], 3, 7⟩).1,
   (C8_roundtrip ⟨["Olá", "mundo"], 3, 7⟩ ⟨["Olá", "mundo"], 3, 7⟩).2 rfl⟩

/-- C9: the claim states every absent, truncated or malformed checkpoint
file loads as the empty checkpoint and corruption is never fatal.
Refuted: a file holding the valid JSON number 42 is malformed as a
checkpoint, yet load returns the raw value 42, not the empty checkpoint,
and the run then fails with an error signal and no output. -/
theorem C9_counterexample :
    load_progress (.json (.num 42)) = PyVal.num 42 ∧
    PyVal.num 42 ≠ defaultProgressPy ∧
    translate_ebook trT "m" bkEntries (some none) (.json (.num 42))
      = ⟨none, .json (.num 42), false, true⟩ := by decide

/-- C9 amended: an absent file or one whose content fails to parse as JSON
loads as the empty checkpoint without raising; but content that parses as
JSON while not being an object is returned as-is by load, and the run on it
aborts with the error signal, leaving the file untouched and writing no
output: such corruption is fatal. -/
theorem C9_corruption (tr : List String → Option (List String)) (mn : String)
    (book : List Item) (c : Option Nat) (v : PyVal)
    (hv : ∀ fields, v ≠ PyVal.dict fields) :
    load_progress .absent = defaultProgressPy ∧
    load_progress .invalidJson = defaultProgressPy ∧
    translate_ebook tr mn book (some c) (.json v)
      = ⟨none, .json v, false, true⟩ := by
  refine ⟨rfl, rfl, ?_⟩
  have hres : resolveProgress (load_progress (.json v))
      (split_into_paragraphs (extract_text_from_epub book)).length = none := by
    cases v with
    | dict fields => exact absurd rfl (hv fields)
    | num n => rfl
    | str s => rfl
    | strList l => rfl
  simp [translate_ebook, hres]

/-- C9 witness: a JSON-number checkpoint file aborts a run on bkOrdA. -/
theorem C9_corruption_witness :
    (∀ fields, PyVal.num 42 ≠ PyVal.dict fields) ∧
    translate_ebook trT "m" bkOrdA (some (some 5)) (.json (.num 42))
      = ⟨none, .json (.num 42), false, true⟩ :=
  ⟨fun _ h => PyVal.noConfusion h,
   (C9_corruption trT "m" bkOrdA (some 5) (.num 42)
     (fun _ h => PyVal.noConfusion h)).2.2⟩

/-- C10: a run invoked without a callback never writes the output book,
never emits the finished signal, and never deletes an existing checkpoint
file, even when every batch translates successfully, because the final
commit block requires a present callback with its flag up. -/
theorem C10_no_callback (tr : List String → Option (List String)) (mn : String)
    (book : List Item) (fs : FileState) :
    (translate_ebook tr mn book none fs).output = none ∧
    (translate_ebook tr mn book none fs).finished = false ∧
    (fs ≠ .absent → (translate_ebook tr mn book none fs).fs ≠ .absent) := by
  simp only [translate_ebook]
  cases hres : resolveProgress (load_progress fs)
      (split_into_paragraphs (extract_text_from_epub book)).length with
  | none => exact ⟨by trivial, by trivial, fun h => h⟩
  | some st =>
    obtain ⟨s0, t0⟩ := st
    have hcb : cbRunning none (batchLoop tr mn
        (split_into_paragraphs (extract_text_from_epub book)).length none
        ((split_into_paragraphs (extract_text_from_epub book)).drop s0) s0 0 t0 fs).polls
        = false := rfl
    simp only [hcb, if_false, Bool.false_eq_true]
    refine ⟨by trivial, by trivial, fun hfs => ?_⟩
    rcases batchLoop_fs_shape tr mn
        (split_into_paragraphs (extract_text_from_epub book)).length none
        ((split_into_paragraphs (extract_text_from_epub book)).drop s0) s0 0 t0 fs with
      h | ⟨p, hp⟩
    · rw [h]; exact hfs
    · rw [hp]; simp [save_progress]

/-- C10 witness: with no callback and an unparseable checkpoint file, the
file survives the run and no output is produced. -/
theorem C10_no_callback_witness :
    (FileState.invalidJson ≠ FileState.absent) ∧
    (translate_ebook trT "m" bkEntries none .invalidJson).fs ≠ FileState.absent :=
  ⟨fun h => FileState.noConfusion h,
   (C10_no_callback trT "m" bkEntries .invalidJson).2.2 (fun h => FileState.noConfusion h)⟩
